import Mathlib

/-!
Shallow embedding of the deterministic frame renderer and export controller of
`src/aal/webapp/static/main.js`.

Modelling conventions:
* Machine floats of the source become exact rationals `ℚ`; JavaScript
  `Math.floor` / `Math.round` / `%` / truncation are modelled explicitly
  (`ratFloor`, `jsRound`, `jsMod`, `jsTrunc`).
* A rendered frame is modelled as the list of canvas drawing operations the
  source performs, in order, each operation carrying every datum that
  determines its pixels (colors, geometry, font, text, and the `progress`
  value that determines the gradient drift `sin(progress * pi)`).  Two frames
  are pixel-identical exactly when their operation lists are equal.
* `ctx.measureText` depends only on the host font metrics; it is modelled as
  an explicit function parameter `measure : String → ℚ` (the source sets the
  font to a fixed value before measuring).
* The asynchronous export controller `renderVideo` is modelled as a pure
  state-transition function over the module-level mutable state of the file
  (`plan`, `isRenderingVideo`, `animationStart`, status text, button flag),
  parametrised by a `CaptureEnv` describing the host capabilities and the
  recorder events of the session; its observable side effects are returned in
  a `SessionLog`.
-/

namespace AAL

/-- Constant `TOTAL_DURATION_MS = 120000` from main.js line 10. -/
def TOTAL_DURATION_MS : ℚ := 120000

/-- Constant `SEGMENT_DURATION_MS = 6000` from main.js line 11. -/
def SEGMENT_DURATION_MS : ℚ := 6000

/-- Constant `FPS = 30` from main.js line 12. -/
def FPS : ℚ := 30

/-- Constant `FRAME_INTERVAL_MS = 1000 / FPS` from main.js line 13. -/
def FRAME_INTERVAL_MS : ℚ := 1000 / FPS

/-- JavaScript `Math.floor` on an exact rational. -/
def ratFloor (q : ℚ) : ℤ := ⌊q⌋

/-- Ceiling of a rational number. -/
def ratCeil (q : ℚ) : ℤ := ⌈q⌉

/-- JavaScript truncation toward zero (used by the `%` operator). -/
def jsTrunc (q : ℚ) : ℤ := if 0 ≤ q then ratFloor q else ratCeil q

/-- JavaScript remainder `a % n`: the result has the sign of the dividend. -/
def jsMod (a n : ℚ) : ℚ := a - n * ((jsTrunc (a / n) : ℤ) : ℚ)

/-- JavaScript `Math.round`: half-up rounding, `floor(q + 1/2)`. -/
def jsRound (q : ℚ) : ℤ := ratFloor (q + 1 / 2)

/-- Constant `FRAMES_PER_SEGMENT = Math.round(SEGMENT_DURATION_MS / FRAME_INTERVAL_MS)`
from main.js line 14 (equals 180). -/
def FRAMES_PER_SEGMENT : ℕ := (jsRound (SEGMENT_DURATION_MS / FRAME_INTERVAL_MS)).toNat

/-- Palette of a render segment (`segment.palette` in the RenderPlan JSON). -/
structure Palette where
  red : ℕ
  green : ℕ
  blue : ℕ
  accent : ℕ
deriving DecidableEq, Repr

/-- One render segment of the plan (`plan.render_segments[i]`). -/
structure Segment where
  index : ℕ
  palette : Palette
  caption : String
deriving DecidableEq, Repr

/-- One canvas drawing operation, carrying all data that determines its
pixels.  `gradientRect` records the two gradient color stops and the
`progress` value: the drift translation of the gradient is
`0.02 * canvas.(width|height) * sin(progress * pi)`, a fixed function of
`progress`, so equal recorded data means equal pixels. -/
inductive DrawOp where
  | fillRect (color : String) (x y w h : ℚ)
  | gradientRect (stop0 stop1 : String) (progress : ℚ)
  | fillText (font color text : String) (x y : ℚ)
deriving DecidableEq, Repr

/-- CSS color string `rgb(r, g, b)` as built by the template literals on
main.js lines 86 and 87. -/
def rgbString (r g b : ℕ) : String :=
  "rgb(" ++ toString r ++ ", " ++ toString g ++ ", " ++ toString b ++ ")"

/-- Recursive worker for `wrapText` (main.js lines 102 to 117): the
`forEach` loop over the words with its mutable accumulator `(line, y)`,
followed by the final `fillText(line.trim(), x, y)`.  Returns the list of
`fillText` calls as `(text, x, y)` triples. -/
def wrapTextAux (measure : String → ℚ) (x maxWidth lineHeight : ℚ) :
    String → ℚ → List String → List (String × ℚ × ℚ)
  | line, y, [] => [(line.trim, x, y)]
  | line, y, w :: ws =>
      if maxWidth < measure (line ++ w ++ " ") ∧ line ≠ "" then
        (line, x, y) :: wrapTextAux measure x maxWidth lineHeight (w ++ " ") (y + lineHeight) ws
      else
        wrapTextAux measure x maxWidth lineHeight (line ++ w ++ " ") y ws

/-- `wrapText(text, x, y, maxWidth, lineHeight)` from main.js lines 102 to
117.  `text.split(" ")` is `String.splitOn " "`. -/
def wrapText (measure : String → ℚ) (text : String) (x y maxWidth lineHeight : ℚ) :
    List (String × ℚ × ℚ) :=
  wrapTextAux measure x maxWidth lineHeight "" y (text.splitOn " ")

/-- `drawSegmentFrame(segment, progress)` from main.js lines 75 to 100.
`planLength` is the value of the module-level `plan.render_segments.length`
read on line 98; `w`, `h` are `canvas.width` and `canvas.height`; `measure`
models `ctx.measureText(...).width` under the font `20px system-ui` set on
line 97.  When `segment` is undefined the source returns at once without
drawing anything. -/
def drawSegmentFrame (planLength : ℕ) (measure : String → ℚ) (w h : ℚ)
    (segment : Option Segment) (progress : ℚ) : List DrawOp :=
  match segment with
  | none => []
  | some seg =>
      DrawOp.fillRect "#020617" 0 0 w h ::
      DrawOp.gradientRect
        (rgbString seg.palette.red seg.palette.green seg.palette.blue)
        (rgbString seg.palette.accent seg.palette.blue seg.palette.red) progress ::
      DrawOp.fillRect "rgba(15, 23, 42, 0.85)" 20 (h - 120) (w - 40) 100 ::
      DrawOp.fillText "20px system-ui" "#e2e8f0"
        ("Segment " ++ toString (seg.index + 1) ++ " / " ++ toString planLength)
        40 (h - 90) ::
      (wrapText measure seg.caption 40 (h - 60) (w - 80) 22).map
        (fun t => DrawOp.fillText "20px system-ui" "#e2e8f0" t.1 t.2.1 t.2.2)

/-- Render a run of words the way the accumulator string of `wrapText` is
built: every word followed by one space. -/
def renderRun (ws : List String) : String :=
  ws.foldl (fun acc w => acc ++ w ++ " ") ""

/-- The word-level shadow of `wrapTextAux`: the same recursion, but the
accumulator keeps the list of words of the current line instead of the glued
string, and the output keeps the runs of words instead of rendered lines. -/
def wrapRunsAux (measure : String → ℚ) (maxWidth : ℚ) :
    List String → List String → List (List String)
  | cur, [] => [cur]
  | cur, w :: ws =>
      if maxWidth < measure (renderRun (cur ++ [w])) ∧ cur ≠ [] then
        cur :: wrapRunsAux measure maxWidth [w] ws
      else
        wrapRunsAux measure maxWidth (cur ++ [w]) ws

/-- Word runs produced by `wrapText` on `text`. -/
def wrapRuns (measure : String → ℚ) (maxWidth : ℚ) (text : String) : List (List String) :=
  wrapRunsAux measure maxWidth [] (text.splitOn " ")

/-- Rendering of word runs back to the `fillText` triples emitted by
`wrapText`: one line per run, each one `lineHeight` lower than the previous,
the last line trimmed. -/
def runsToLines (x lineHeight : ℚ) : ℚ → List (List String) → List (String × ℚ × ℚ)
  | _, [] => []
  | y, [r] => [((renderRun r).trim, x, y)]
  | y, r :: r2 :: rs =>
      (renderRun r, x, y) :: runsToLines x lineHeight (y + lineHeight) (r2 :: rs)

/-- Relation between a flushed line and the run that follows it: the line was
nonempty and appending the first word of the next run would have exceeded the
available width. -/
def BreakCond (measure : String → ℚ) (maxWidth : ℚ) (r next : List String) : Prop :=
  ∃ w rest, next = w :: rest ∧ maxWidth < measure (renderRun (r ++ [w])) ∧ r ≠ []

/-- Greedy accumulation invariant of one output run: every time a word was
appended to an already nonempty line (every prefix of length at least two),
the grown line still fit within the available width. -/
def FitsGreedily (measure : String → ℚ) (maxWidth : ℚ) (r : List String) : Prop :=
  ∀ k : ℕ, 2 ≤ k → k ≤ r.length → measure (renderRun (r.take k)) ≤ maxWidth

/-- Module-level mutable state read by the preview loop `drawFrame`. -/
structure PreviewState where
  plan : Option (List Segment)
  isRenderingVideo : Bool
  animationStart : Option ℚ
deriving DecidableEq

/-- JavaScript array indexing `segs[i]` with an integer index: out of range
(including negative) yields undefined. -/
def jsIndex (segs : List Segment) (i : ℤ) : Option Segment :=
  if 0 ≤ i then segs.get? i.toNat else none

/-- `drawFrame(timestamp)` from main.js lines 56 to 73: one invocation of the
live-preview callback.  Returns the drawing operations performed, the updated
state and whether `requestAnimationFrame(drawFrame)` was called again. -/
def drawFrame (measure : String → ℚ) (w h : ℚ) (st : PreviewState) (timestamp : ℚ) :
    List DrawOp × PreviewState × Bool :=
  match st.plan with
  | none => ([DrawOp.fillRect "#020617" 0 0 w h], st, true)
  | some segs =>
      if st.isRenderingVideo then
        ([DrawOp.fillRect "#020617" 0 0 w h], st, true)
      else
        let start := st.animationStart.getD timestamp
        let elapsed := jsMod (timestamp - start) TOTAL_DURATION_MS
        let index := ratFloor (elapsed / SEGMENT_DURATION_MS)
        let segment := jsIndex segs index
        let segmentElapsed := elapsed - (index : ℚ) * SEGMENT_DURATION_MS
        let progress := max 0 (min 1 (segmentElapsed / SEGMENT_DURATION_MS))
        (DrawOp.fillRect "#020617" 0 0 w h ::
           drawSegmentFrame segs.length measure w h segment progress,
         { st with animationStart := some start }, true)

/-- Frames drawn for one segment by the inner loop of either export strategy
(main.js lines 252 to 261 and 275 to 283): frame indices
`0 .. FRAMES_PER_SEGMENT - 1`, progress `frameIndex / FRAMES_PER_SEGMENT`. -/
def segmentFrames (seg : Segment) : List (Option Segment × ℚ) :=
  (List.range FRAMES_PER_SEGMENT).map
    (fun (k : ℕ) => (some seg, (k : ℚ) / (FRAMES_PER_SEGMENT : ℚ)))

/-- The outer loop over `plan.render_segments` shared by both strategies. -/
def exportFrameLoop : List Segment → List (Option Segment × ℚ)
  | [] => []
  | seg :: rest => segmentFrames seg ++ exportFrameLoop rest

/-- `renderWithManualFrames(track)` from main.js lines 245 to 266, as the
sequence of `(segment, progress)` pairs at each `drawSegmentFrame` +
`track.requestFrame()` call: the nested loops, then one terminal frame at
progress 1 for `plan.render_segments[plan.render_segments.length - 1]`
(undefined when the plan is empty). -/
def renderWithManualFrames (segs : List Segment) : List (Option Segment × ℚ) :=
  exportFrameLoop segs ++ [(segs.getLast?, 1)]

/-- `renderWithTimedFrames()` from main.js lines 268 to 287, as the sequence
of `(segment, progress)` pairs at each `drawSegmentFrame` call (each frame is
then held on-surface for one frame interval; the drawing sequence is
identical to the manual strategy). -/
def renderWithTimedFrames (segs : List Segment) : List (Option Segment × ℚ) :=
  exportFrameLoop segs ++ [(segs.getLast?, 1)]

/-- One captured video track handle. -/
structure Track where
  id : ℕ
  requestFrameSupported : Bool
deriving DecidableEq, Repr

/-- Host environment and per-session recorder events, fixing every branch the
asynchronous `renderVideo` takes. -/
structure CaptureEnv where
  captureStreamAvailable : Bool
  zeroRateTrack : Option Track
  fixedRateTrack : Option Track
  mediaRecorderAvailable : Bool
  isTypeSupportedAvailable : Bool
  typeSupported : String → Bool
  recorderConstructs : String → Bool
  recorderFault : Option String
  chunkSizes : List ℕ
  nowAtStart : ℚ
  nowAtEnd : ℚ

/-- Module-level mutable state touched by `renderVideo`. -/
structure ExportState where
  plan : Option (List Segment)
  isRenderingVideo : Bool
  renderStatus : String
  renderButtonDisabled : Bool
  animationStart : Option ℚ
deriving DecidableEq

/-- Observable per-session effects of one `renderVideo` call. -/
structure SessionLog where
  started : Bool
  usedManualStrategy : Bool
  acquiredTrack : Option Track
  acquiredTrackStopped : Bool
  framesDelivered : List (Option Segment × ℚ)
  download : Option String
deriving DecidableEq

/-- Log of a call that never started a session. -/
def emptyLog : SessionLog :=
  { started := false
    usedManualStrategy := false
    acquiredTrack := none
    acquiredTrackStopped := false
    framesDelivered := []
    download := none }

/-- Capability detection of main.js lines 168 to 177: probe the zero-rate
capture source for `requestFrame`; if absent, stop and discard it and
substitute the fixed-rate source.  Returns the acquired track (if any) and
whether manual frame support was detected. -/
def acquireTrack (env : CaptureEnv) : Option Track × Bool :=
  match env.zeroRateTrack with
  | some t => if t.requestFrameSupported then (some t, true) else (env.fixedRateTrack, false)
  | none => (env.fixedRateTrack, false)

/-- The ordered mime-type preference list of `selectMediaRecorder`
(main.js lines 124 to 128). -/
def mimeTypes : List String :=
  ["video/webm;codecs=vp9", "video/webm;codecs=vp8", "video/webm"]

/-- The `for (const mimeType of mimeTypes)` loop of main.js lines 132 to 140:
try each type in order; a type is taken when `MediaRecorder.isTypeSupported`
is missing or approves it and the recorder construction does not throw;
`none` stands for the final fallback `new MediaRecorder(stream)`. -/
def pickRecorderMime (env : CaptureEnv) : List String → Option String
  | [] => none
  | m :: rest =>
      if ((!env.isTypeSupportedAvailable) || env.typeSupported m) && env.recorderConstructs m
      then some m
      else pickRecorderMime env rest

/-- `selectMediaRecorder(stream)` from main.js lines 123 to 142: fail when the
MediaRecorder API is missing, otherwise pick the first usable mime type. -/
def selectMediaRecorder (env : CaptureEnv) : Except String (Option String) :=
  if env.mediaRecorderAvailable then .ok (pickRecorderMime env mimeTypes)
  else .error "MediaRecorder API is unavailable in this browser"

/-- Message built by `recorder.onerror` (main.js line 195):
`event.error?.message || "unknown error"`. -/
def errorText (msg : String) : String :=
  "Recording failed: " ++ (if msg = "" then "unknown error" else msg)

/-- Resolution of the recording promise (main.js lines 186 to 204): a
recorder fault rejects; otherwise on stop, no accumulated non-empty data
chunk rejects with the empty-capture message, else a blob is produced. -/
def recordingOutcome (env : CaptureEnv) : Except String Unit :=
  match env.recorderFault with
  | some msg => .error (errorText msg)
  | none =>
      if (env.chunkSizes.filter (fun s => decide (0 < s))).isEmpty
      then .error "No video data was captured."
      else .ok ()

/-- Status text shown at the end of `renderVideo`: the success message of
main.js line 231, or the caught error message (main.js line 234). -/
def statusFor : Except String Unit → String
  | .ok _ => "Download ready: aal-deterministic-video.webm"
  | .error e => e

/-- Download artifact of `renderVideo`: on success the anchor of main.js
lines 224 to 229 with the fixed filename of line 226; none on failure. -/
def downloadFor : Except String Unit → Option String
  | .ok _ => some "aal-deterministic-video.webm"
  | .error _ => none

/-- Try block of `renderVideo` (main.js lines 167 to 231): track
acquisition, recorder selection, the frame loop of the selected strategy,
and the resolution of the recording promise; an `Except.error` is a thrown
error reaching the catch block, paired with the frames drawn and delivered
by the loops (empty when an error precedes them). -/
def sessionOutcome (env : CaptureEnv) (segs : List Segment) :
    Except String Unit × List (Option Segment × ℚ) :=
  match (acquireTrack env).1 with
  | none => (.error "Unable to access a video track for capture.", [])
  | some _ =>
      match selectMediaRecorder env with
      | .error e => (.error e, [])
      | .ok _ =>
          (recordingOutcome env,
           if (acquireTrack env).2 then renderWithManualFrames segs
           else renderWithTimedFrames segs)

/-- `renderVideo()` from main.js lines 144 to 243, observed at completion:
the three entry guards in source order, then the try block (via
`sessionOutcome`), the catch block (status shows the error message), and
the finally block (stop the acquired track if any, re-enable the button,
reset the preview epoch to the current time, clear the guard). -/
def renderVideo (env : CaptureEnv) (st : ExportState) : ExportState × SessionLog :=
  match st.plan with
  | none =>
      ({ st with renderStatus := "Generate a plan before exporting the video." }, emptyLog)
  | some segs =>
      if env.captureStreamAvailable = false then
        ({ st with renderStatus := "Canvas captureStream is unavailable in this browser." },
         emptyLog)
      else if st.isRenderingVideo = true then
        ({ st with renderStatus := "Rendering already in progress." }, emptyLog)
      else
        ({ plan := st.plan
           isRenderingVideo := false
           renderStatus := statusFor (sessionOutcome env segs).1
           renderButtonDisabled := false
           animationStart := some env.nowAtEnd },
         { started := true
           usedManualStrategy := (acquireTrack env).2
           acquiredTrack := (acquireTrack env).1
           acquiredTrackStopped := (acquireTrack env).1.isSome
           framesDelivered := (sessionOutcome env segs).2
           download := downloadFor (sessionOutcome env segs).1 })

/-- Text payload of a `fillText` operation, used to compare single drawing
operations without evaluating their rational coordinates. -/
def opText : DrawOp → Option String
  | .fillText _ _ t _ _ => some t
  | _ => none

/-- Sample palette for concrete evaluations. -/
def samplePalette : Palette := { red := 10, green := 20, blue := 30, accent := 40 }

/-- Sample segment for concrete evaluations. -/
def sampleSegment : Segment := { index := 0, palette := samplePalette, caption := "hi" }

/-- A concrete plan of twenty segments. -/
def testPlan : List Segment :=
  (List.range 20).map (fun i => { index := i, palette := samplePalette, caption := "caption" })

/-- A text-metrics function that reports width zero for every string. -/
def measureZero : String → ℚ := fun _ => 0

/-- A capture environment with full capabilities and a successful session. -/
def envSample : CaptureEnv :=
  { captureStreamAvailable := true
    zeroRateTrack := some { id := 0, requestFrameSupported := true }
    fixedRateTrack := some { id := 1, requestFrameSupported := false }
    mediaRecorderAvailable := true
    isTypeSupportedAvailable := true
    typeSupported := fun _ => true
    recorderConstructs := fun _ => true
    recorderFault := none
    chunkSizes := [100]
    nowAtStart := 0
    nowAtEnd := 1 }

/-- Idle state with the sample plan loaded. -/
def stIdle : ExportState :=
  { plan := some testPlan
    isRenderingVideo := false
    renderStatus := ""
    renderButtonDisabled := false
    animationStart := some 0 }

/-- State with an export session in progress. -/
def stBusy : ExportState :=
  { stIdle with isRenderingVideo := true, renderButtonDisabled := true }

/-- State with no plan loaded. -/
def stNoPlan : ExportState :=
  { plan := none
    isRenderingVideo := false
    renderStatus := ""
    renderButtonDisabled := false
    animationStart := none }

theorem FRAMES_PER_SEGMENT_eq : FRAMES_PER_SEGMENT = 180 := by
  have h : (SEGMENT_DURATION_MS / FRAME_INTERVAL_MS + 1 / 2 : ℚ) = 361 / 2 := by
    norm_num [SEGMENT_DURATION_MS, FRAME_INTERVAL_MS, FPS]
  rw [FRAMES_PER_SEGMENT, jsRound, ratFloor, h]
  norm_num
  rfl

theorem length_segmentFrames (seg : Segment) :
    (segmentFrames seg).length = FRAMES_PER_SEGMENT := by
  rw [segmentFrames, List.length_map, List.length_range]

theorem length_exportFrameLoop :
    ∀ segs : List Segment, (exportFrameLoop segs).length = segs.length * FRAMES_PER_SEGMENT := by
  intro segs
  induction segs with
  | nil => simp [exportFrameLoop]
  | cons s rest ih =>
      simp [exportFrameLoop, length_segmentFrames, ih]
      ring

theorem length_renderWithManualFrames (segs : List Segment) :
    (renderWithManualFrames segs).length = segs.length * FRAMES_PER_SEGMENT + 1 := by
  simp [renderWithManualFrames, length_exportFrameLoop]

theorem length_renderWithTimedFrames (segs : List Segment) :
    (renderWithTimedFrames segs).length = segs.length * FRAMES_PER_SEGMENT + 1 := by
  simp [renderWithTimedFrames, length_exportFrameLoop]

theorem testPlan_length : testPlan.length = 20 := rfl

/-- Claim C1, counterexample: on a concrete plan of 20 segments the
manual-push strategy delivers a frame to the sink at every
`track.requestFrame()` call, and the number of those calls is not
`segmentCount * framesPerSegment = 3600`: the terminal frame rendered after
the main loop (main.js lines 263 to 264) is one additional delivery, making
3601. -/
theorem C1_counterexample : (renderWithManualFrames testPlan).length ≠ 3600 := by
  rw [length_renderWithManualFrames, FRAMES_PER_SEGMENT_eq, testPlan_length]
  decide

/-- Claim C1 as amended: for every loaded plan with 20 segments and fps 30, a
full export emits exactly `totalFrames + 1 = 20 * 180 + 1 = 3601` frames
(3600 from the main loop plus the one terminal frame rendered after it),
under both the manual-push and the timed-capture strategy. -/
theorem C1_total_frames (segs : List Segment) (h : segs.length = 20) :
    (renderWithManualFrames segs).length = 20 * FRAMES_PER_SEGMENT + 1
    ∧ (renderWithTimedFrames segs).length = 20 * FRAMES_PER_SEGMENT + 1
    ∧ 20 * FRAMES_PER_SEGMENT + 1 = 3601 := by
  rw [length_renderWithManualFrames, length_renderWithTimedFrames, h, FRAMES_PER_SEGMENT_eq]
  exact ⟨rfl, rfl, rfl⟩

/-- Witness for C1_total_frames at the concrete 20-segment plan. -/
theorem C1_witness :
    testPlan.length = 20
    ∧ ((renderWithManualFrames testPlan).length = 20 * FRAMES_PER_SEGMENT + 1
       ∧ (renderWithTimedFrames testPlan).length = 20 * FRAMES_PER_SEGMENT + 1
       ∧ 20 * FRAMES_PER_SEGMENT + 1 = 3601) :=
  ⟨rfl, C1_total_frames testPlan rfl⟩

/-- Claim C2, counterexample: the frame renderer is not a pure function of
`(segment, progress)` alone, because it also reads the mutable module-level
plan (main.js line 98, `plan.render_segments.length`) for the segment
counter overlay: the same `(segment, progress)` drawn while plans of
different lengths are loaded yields different pixels (different counter
text). -/
theorem C2_counterexample :
    drawSegmentFrame 20 measureZero 640 360 (some sampleSegment) 0 ≠
    drawSegmentFrame 1 measureZero 640 360 (some sampleSegment) 0 := by
  intro h
  have h3 := congrArg (fun l => (l.get? 3).bind opText) h
  exact absurd h3 (by decide)

/-- Claim C2 as amended: the frame renderer is a pure function of
`(segment, progress)` together with the loaded plan's segment count (and the
host text metrics): two calls with identical such inputs produce identical
drawing operations, hence pixel-identical output, with no wall-clock input;
and its first operation paints the full background, so the output is also
independent of whatever was previously on the surface. -/
theorem C2_render_deterministic (L : ℕ) (m : String → ℚ) (w h : ℚ) (seg : Segment) (p : ℚ) :
    drawSegmentFrame L m w h (some seg) p = drawSegmentFrame L m w h (some seg) p
    ∧ (drawSegmentFrame L m w h (some seg) p).head? =
        some (DrawOp.fillRect "#020617" 0 0 w h) :=
  ⟨rfl, rfl⟩

/-- Claim C3, counterexample: called with an undefined segment the renderer
returns immediately (main.js lines 76 to 78) and performs no drawing
operation at all: in particular the background fill of lines 79 to 80 is not
applied, contradicting the claim that a background-only frame is rendered. -/
theorem C3_counterexample :
    drawSegmentFrame 20 measureZero 640 360 none 0 = []
    ∧ DrawOp.fillRect "#020617" 0 0 640 360 ∉
        drawSegmentFrame 20 measureZero 640 360 none 0 :=
  ⟨rfl, by simp [drawSegmentFrame]⟩

/-- Claim C3 as amended: for every progress value, the renderer called with
an undefined segment performs no drawing operation whatsoever: no caption
bar, no text overlay, and no background fill either (the background-only
frame seen in the live preview comes from `drawFrame` itself, which fills
the background unconditionally before invoking the renderer). -/
theorem C3_none_renders_nothing (L : ℕ) (m : String → ℚ) (w h p : ℚ) :
    drawSegmentFrame L m w h none p = [] := rfl

/-- Claim C4: while an export session is active, a second export request is
rejected on the guard of main.js lines 153 to 156: it only writes the status
text; the guard flag, the loaded plan, the preview epoch and the button flag
are untouched, and no session is started (so the running session's frame
counters and acquired track are untouched as well). -/
theorem C4_concurrent_request_rejected (env : CaptureEnv) (st : ExportState)
    (hbusy : st.isRenderingVideo = true) :
    (renderVideo env st).1.isRenderingVideo = true
    ∧ (renderVideo env st).1.plan = st.plan
    ∧ (renderVideo env st).1.animationStart = st.animationStart
    ∧ (renderVideo env st).1.renderButtonDisabled = st.renderButtonDisabled
    ∧ (renderVideo env st).2 = emptyLog := by
  cases hp : st.plan with
  | none => simp [renderVideo, hp, hbusy]
  | some segs =>
      by_cases hc : env.captureStreamAvailable = false <;>
        simp [renderVideo, hp, hc, hbusy]

/-- Witness for C4_concurrent_request_rejected at a concrete busy state. -/
theorem C4_witness :
    stBusy.isRenderingVideo = true
    ∧ ((renderVideo envSample stBusy).1.isRenderingVideo = true
       ∧ (renderVideo envSample stBusy).1.plan = stBusy.plan
       ∧ (renderVideo envSample stBusy).1.animationStart = stBusy.animationStart
       ∧ (renderVideo envSample stBusy).1.renderButtonDisabled = stBusy.renderButtonDisabled
       ∧ (renderVideo envSample stBusy).2 = emptyLog) :=
  ⟨rfl, C4_concurrent_request_rejected envSample stBusy rfl⟩

/-- Claim C5: an export request with no loaded plan fails on the first guard
(main.js lines 145 to 148): only the status text changes, the state is
otherwise untouched (in particular the guard keeps whatever value it had, so
a free guard stays free), and no session is started: no capture resources
are acquired. -/
theorem C5_no_plan_rejected (env : CaptureEnv) (st : ExportState) (h : st.plan = none) :
    (renderVideo env st).1 =
      { st with renderStatus := "Generate a plan before exporting the video." }
    ∧ (renderVideo env st).1.isRenderingVideo = st.isRenderingVideo
    ∧ (renderVideo env st).2 = emptyLog := by
  simp [renderVideo, h]

/-- Witness for C5_no_plan_rejected at a concrete plan-free state. -/
theorem C5_witness :
    stNoPlan.plan = none
    ∧ ((renderVideo envSample stNoPlan).1 =
        { stNoPlan with renderStatus := "Generate a plan before exporting the video." }
       ∧ (renderVideo envSample stNoPlan).1.isRenderingVideo = stNoPlan.isRenderingVideo
       ∧ (renderVideo envSample stNoPlan).2 = emptyLog) :=
  ⟨rfl, C5_no_plan_rejected envSample stNoPlan rfl⟩

/-- Claim C6: on every exit path of an export session (every outcome of the
try block, success or any error), the finally clause of main.js lines 235 to
242 runs: the acquired track is stopped exactly when one was acquired, the
concurrency guard is cleared, the button is re-enabled and the preview epoch
is reset to the current time so live playback resumes. -/
theorem C6_cleanup_on_exit (env : CaptureEnv) (st : ExportState) (segs : List Segment)
    (hplan : st.plan = some segs) (hcap : env.captureStreamAvailable = true)
    (hfree : st.isRenderingVideo = false) :
    (renderVideo env st).1.isRenderingVideo = false
    ∧ (renderVideo env st).1.animationStart = some env.nowAtEnd
    ∧ (renderVideo env st).1.renderButtonDisabled = false
    ∧ (renderVideo env st).2.started = true
    ∧ (renderVideo env st).2.acquiredTrackStopped = (renderVideo env st).2.acquiredTrack.isSome := by
  simp [renderVideo, hplan, hcap, hfree]

/-- Witness for C6_cleanup_on_exit at a concrete idle state and capable
environment. -/
theorem C6_witness :
    (stIdle.plan = some testPlan
     ∧ envSample.captureStreamAvailable = true
     ∧ stIdle.isRenderingVideo = false)
    ∧ ((renderVideo envSample stIdle).1.isRenderingVideo = false
       ∧ (renderVideo envSample stIdle).1.animationStart = some envSample.nowAtEnd
       ∧ (renderVideo envSample stIdle).1.renderButtonDisabled = false
       ∧ (renderVideo envSample stIdle).2.started = true
       ∧ (renderVideo envSample stIdle).2.acquiredTrackStopped =
           (renderVideo envSample stIdle).2.acquiredTrack.isSome) :=
  ⟨⟨rfl, rfl, rfl⟩, C6_cleanup_on_exit envSample stIdle testPlan rfl rfl rfl⟩

theorem pickRecorderMime_eq_find (env : CaptureEnv)
    (hits : env.isTypeSupportedAvailable = true)
    (hcon : ∀ s, env.recorderConstructs s = true) :
    ∀ l : List String, pickRecorderMime env l = l.find? env.typeSupported := by
  intro l
  induction l with
  | nil => rfl
  | cons m rest ih =>
      rw [pickRecorderMime, hits, hcon m]
      cases hts : env.typeSupported m <;> simp [List.find?, hts, ih]

theorem download_filename_fixed (env : CaptureEnv) (st : ExportState) :
    (renderVideo env st).2.download = none
    ∨ (renderVideo env st).2.download = some "aal-deterministic-video.webm" := by
  cases hp : st.plan with
  | none => left; simp [renderVideo, hp, emptyLog]
  | some segs =>
      by_cases hc : env.captureStreamAvailable = false
      · left; simp [renderVideo, hp, hc, emptyLog]
      · by_cases hb : st.isRenderingVideo = true
        · left; simp [renderVideo, hp, hc, hb, emptyLog]
        · cases houtcome : (sessionOutcome env segs).1 with
          | ok u => right; simp [renderVideo, hp, hc, hb, houtcome, downloadFor]
          | error e => left; simp [renderVideo, hp, hc, hb, houtcome, downloadFor]

/-- Claim C7: when the MediaRecorder API is present (and recorder
construction succeeds), the container/codec is the first supported entry of
the fixed ordered list vp9-in-webm, vp8-in-webm, generic webm (main.js lines
124 to 141); and whatever the session outcome, the only filename an exported
artifact ever carries is `aal-deterministic-video.webm` (main.js line 226). -/
theorem C7_recorder_preference (env : CaptureEnv)
    (hmr : env.mediaRecorderAvailable = true)
    (hits : env.isTypeSupportedAvailable = true)
    (hcon : ∀ s, env.recorderConstructs s = true) :
    selectMediaRecorder env = .ok (mimeTypes.find? env.typeSupported)
    ∧ (∀ e2 st, (renderVideo e2 st).2.download = none
        ∨ (renderVideo e2 st).2.download = some "aal-deterministic-video.webm") := by
  constructor
  · rw [selectMediaRecorder, if_pos hmr, pickRecorderMime_eq_find env hits hcon]
  · intro e2 st
    exact download_filename_fixed e2 st

/-- Witness for C7_recorder_preference in the fully capable environment. -/
theorem C7_witness :
    (envSample.mediaRecorderAvailable = true
     ∧ envSample.isTypeSupportedAvailable = true
     ∧ ∀ s, envSample.recorderConstructs s = true)
    ∧ (selectMediaRecorder envSample = .ok (mimeTypes.find? envSample.typeSupported)
       ∧ ∀ e2 st, (renderVideo e2 st).2.download = none
           ∨ (renderVideo e2 st).2.download = some "aal-deterministic-video.webm") :=
  ⟨⟨rfl, rfl, fun _ => rfl⟩, C7_recorder_preference envSample rfl rfl (fun _ => rfl)⟩

/-- Claim C8: every invocation of the live-preview callback `drawFrame`
(main.js lines 56 to 73), in every branch (no plan, export in progress, or
normal playback), first paints the full background and ends by re-scheduling
itself via `requestAnimationFrame`; it never stops permanently. -/
theorem C8_preview_always_reschedules (m : String → ℚ) (w h : ℚ)
    (st : PreviewState) (ts : ℚ) :
    (drawFrame m w h st ts).1.head? = some (DrawOp.fillRect "#020617" 0 0 w h)
    ∧ (drawFrame m w h st ts).2.2 = true := by
  cases hp : st.plan with
  | none => simp [drawFrame, hp]
  | some segs =>
      by_cases hr : st.isRenderingVideo <;> simp [drawFrame, hp, hr]

theorem renderRun_append_one (ws : List String) (w : String) :
    renderRun (ws ++ [w]) = renderRun ws ++ w ++ " " := by
  simp [renderRun, List.foldl_append]

theorem renderRun_ne_empty (ws : List String) (hw : ws ≠ []) : renderRun ws ≠ "" := by
  rcases List.eq_nil_or_concat ws with hnil | ⟨init, last, hcat⟩
  · exact absurd hnil hw
  · subst hcat
    rw [List.concat_eq_append, renderRun_append_one]
    intro hcontra
    have hlen := congrArg String.length hcontra
    rw [String.length_append] at hlen
    have hone : (" " : String).length = 1 := rfl
    rw [hone] at hlen
    simp at hlen

theorem renderRun_eq_empty_iff (ws : List String) : renderRun ws = "" ↔ ws = [] := by
  constructor
  · intro h
    by_contra hne
    exact renderRun_ne_empty ws hne h
  · intro h
    subst h
    rfl

theorem wrapRunsAux_first (m : String → ℚ) (mw : ℚ) :
    ∀ (ws cur : List String), ∃ ext rs, wrapRunsAux m mw cur ws = (cur ++ ext) :: rs := by
  intro ws
  induction ws with
  | nil => intro cur; exact ⟨[], [], by simp [wrapRunsAux]⟩
  | cons w rest ih =>
      intro cur
      by_cases h : mw < m (renderRun (cur ++ [w])) ∧ cur ≠ []
      · exact ⟨[], wrapRunsAux m mw [w] rest, by rw [wrapRunsAux, if_pos h]; simp⟩
      · obtain ⟨ext, rs, hr⟩ := ih (cur ++ [w])
        exact ⟨w :: ext, rs, by rw [wrapRunsAux, if_neg h, hr]; simp⟩

theorem wrapRunsAux_join (m : String → ℚ) (mw : ℚ) :
    ∀ (ws cur : List String), (wrapRunsAux m mw cur ws).flatten = cur ++ ws := by
  intro ws
  induction ws with
  | nil => intro cur; simp [wrapRunsAux]
  | cons w rest ih =>
      intro cur
      by_cases h : mw < m (renderRun (cur ++ [w])) ∧ cur ≠ []
      · rw [wrapRunsAux, if_pos h]
        simp [ih [w]]
      · rw [wrapRunsAux, if_neg h, ih (cur ++ [w])]
        simp

theorem wrapRunsAux_chain (m : String → ℚ) (mw : ℚ) :
    ∀ (ws cur : List String), List.Chain' (BreakCond m mw) (wrapRunsAux m mw cur ws) := by
  intro ws
  induction ws with
  | nil => intro cur; simp [wrapRunsAux]
  | cons w rest ih =>
      intro cur
      by_cases h : mw < m (renderRun (cur ++ [w])) ∧ cur ≠ []
      · rw [wrapRunsAux, if_pos h]
        obtain ⟨ext, rs, hr⟩ := wrapRunsAux_first m mw rest [w]
        rw [hr]
        refine List.Chain'.cons ?_ ?_
        · exact ⟨w, ext, by simp, h.1, h.2⟩
        · rw [← hr]
          exact ih [w]
      · rw [wrapRunsAux, if_neg h]
        exact ih (cur ++ [w])

theorem fits_of_short (m : String → ℚ) (mw : ℚ) (r : List String) (h : r.length ≤ 1) :
    FitsGreedily m mw r := by
  intro k hk2 hklen
  omega

theorem wrapRunsAux_fits (m : String → ℚ) (mw : ℚ) :
    ∀ (ws cur : List String), FitsGreedily m mw cur →
      ∀ r ∈ wrapRunsAux m mw cur ws, FitsGreedily m mw r := by
  intro ws
  induction ws with
  | nil =>
      intro cur hcur r hr
      simp [wrapRunsAux] at hr
      subst hr
      exact hcur
  | cons w rest ih =>
      intro cur hcur r hr
      by_cases h : mw < m (renderRun (cur ++ [w])) ∧ cur ≠ []
      · rw [wrapRunsAux, if_pos h] at hr
        rcases List.mem_cons.mp hr with h1 | h2
        · subst h1
          exact hcur
        · exact ih [w] (fits_of_short m mw [w] (by simp)) r h2
      · rw [wrapRunsAux, if_neg h] at hr
        refine ih (cur ++ [w]) ?_ r hr
        intro k hk2 hklen
        rw [List.length_append, List.length_singleton] at hklen
        by_cases hkle : k ≤ cur.length
        · have htake : (cur ++ [w]).take k = cur.take k := by
            rw [List.take_append_eq_append_take, Nat.sub_eq_zero_of_le hkle]
            simp
          rw [htake]
          exact hcur k hk2 hkle
        · have hkeq : k = cur.length + 1 := by omega
          have hcne : cur ≠ [] := by
            intro hnil
            subst hnil
            simp at hkeq
            omega
          have htake : (cur ++ [w]).take k = cur ++ [w] := by
            apply List.take_of_length_le
            rw [List.length_append, List.length_singleton]
            omega
          rw [htake]
          have hnlt : ¬ mw < m (renderRun (cur ++ [w])) := fun hlt => h ⟨hlt, hcne⟩
          exact not_lt.mp hnlt

theorem wrapTextAux_eq_runs (m : String → ℚ) (x mw lh : ℚ) :
    ∀ (ws cur : List String) (y : ℚ),
      wrapTextAux m x mw lh (renderRun cur) y ws
        = runsToLines x lh y (wrapRunsAux m mw cur ws) := by
  intro ws
  induction ws with
  | nil =>
      intro cur y
      simp [wrapTextAux, wrapRunsAux, runsToLines]
  | cons w rest ih =>
      intro cur y
      by_cases h : mw < m (renderRun (cur ++ [w])) ∧ cur ≠ []
      · have h1 : mw < m (renderRun cur ++ w ++ " ") ∧ renderRun cur ≠ "" := by
          constructor
          · rw [← renderRun_append_one]
            exact h.1
          · rw [ne_eq, renderRun_eq_empty_iff]
            exact h.2
        rw [wrapTextAux, if_pos h1, wrapRunsAux, if_pos h]
        obtain ⟨ext, rs, hr⟩ := wrapRunsAux_first m mw rest [w]
        rw [hr, runsToLines]
        congr 1
        have hw : w ++ " " = renderRun [w] := rfl
        rw [hw, ih [w] (y + lh), hr]
      · have h1 : ¬(mw < m (renderRun cur ++ w ++ " ") ∧ renderRun cur ≠ "") := by
          intro hx
          apply h
          constructor
          · rw [renderRun_append_one]
            exact hx.1
          · intro hnil
            subst hnil
            exact hx.2 rfl
        rw [wrapTextAux, if_neg h1, wrapRunsAux, if_neg h]
        rw [show renderRun cur ++ w ++ " " = renderRun (cur ++ [w]) from
              (renderRun_append_one cur w).symm]
        exact ih (cur ++ [w]) y

theorem runsToLines_ys (x lh : ℚ) :
    ∀ (runs : List (List String)) (y : ℚ),
      (runsToLines x lh y runs).map (fun t => t.2.2)
        = (List.range runs.length).map (fun i : ℕ => y + i * lh) := by
  intro runs
  induction runs with
  | nil => intro y; simp [runsToLines]
  | cons r rs ih =>
      intro y
      cases rs with
      | nil =>
          simp [runsToLines, List.range_succ]
      | cons r2 rs2 =>
          rw [runsToLines, List.length_cons, List.range_succ_eq_map]
          simp only [List.map_cons, List.map_map]
          rw [ih (y + lh)]
          congr 1
          · push_cast
            ring
          · apply List.map_congr_left
            intro i _
            simp only [Function.comp_apply]
            push_cast [Nat.succ_eq_add_one]
            ring

/-- Claim C9: the caption text is word-wrapped greedily by `wrapText`
(main.js lines 102 to 117): the emitted lines are exactly the runs of a
partition of the space-separated words in order (no word broken, dropped or
duplicated); a line is flushed exactly when it is nonempty and appending the
next word would exceed the available width (every adjacent pair of runs
satisfies the break condition, and inside every run each word appended to a
nonempty line still fit); and each flushed line places the next one exactly
one line-height lower. -/
theorem C9_greedy_word_wrap (m : String → ℚ) (x y mw lh : ℚ) (text : String) :
    wrapText m text x y mw lh = runsToLines x lh y (wrapRuns m mw text)
    ∧ (wrapRuns m mw text).flatten = text.splitOn " "
    ∧ List.Chain' (BreakCond m mw) (wrapRuns m mw text)
    ∧ (∀ r ∈ wrapRuns m mw text, FitsGreedily m mw r)
    ∧ (runsToLines x lh y (wrapRuns m mw text)).map (fun t => t.2.2)
        = (List.range (wrapRuns m mw text).length).map (fun i : ℕ => y + i * lh) := by
  refine ⟨?_, ?_, ?_, ?_, ?_⟩
  · rw [wrapText, wrapRuns]
    exact wrapTextAux_eq_runs m x mw lh (text.splitOn " ") [] y
  · rw [wrapRuns]
    simpa using wrapRunsAux_join m mw (text.splitOn " ") []
  · rw [wrapRuns]
    exact wrapRunsAux_chain m mw (text.splitOn " ") []
  · rw [wrapRuns]
    exact wrapRunsAux_fits m mw (text.splitOn " ") []
      (fits_of_short m mw [] (by simp))
  · exact runsToLines_ys x lh (wrapRuns m mw text) y

/-- Witness for C9_greedy_word_wrap at concrete inputs. -/
theorem C9_witness :
    wrapText measureZero "hello world" 40 300 560 22
        = runsToLines 40 22 300 (wrapRuns measureZero 560 "hello world")
    ∧ (wrapRuns measureZero 560 "hello world").flatten = "hello world".splitOn " "
    ∧ List.Chain' (BreakCond measureZero 560) (wrapRuns measureZero 560 "hello world")
    ∧ (∀ r ∈ wrapRuns measureZero 560 "hello world", FitsGreedily measureZero 560 r)
    ∧ (runsToLines 40 22 300 (wrapRuns measureZero 560 "hello world")).map (fun t => t.2.2)
        = (List.range (wrapRuns measureZero 560 "hello world").length).map
            (fun i : ℕ => (300 : ℚ) + i * 22) :=
  C9_greedy_word_wrap measureZero 40 300 560 22 "hello world"

theorem exportFrameLoop_progress (segs : List Segment) :
    ∀ pr ∈ exportFrameLoop segs,
      ∃ k : ℕ, k < FRAMES_PER_SEGMENT
        ∧ pr.2 = (k : ℚ) / (FRAMES_PER_SEGMENT : ℚ) := by
  induction segs with
  | nil =>
      intro pr hpr
      simp [exportFrameLoop] at hpr
  | cons s rest ih =>
      intro pr hpr
      rw [exportFrameLoop] at hpr
      rcases List.mem_append.mp hpr with h1 | h2
      · rw [segmentFrames] at h1
        obtain ⟨k, hk, hfk⟩ := List.mem_map.mp h1
        refine ⟨k, List.mem_range.mp hk, ?_⟩
        rw [← hfk]
      · exact ih pr h2

theorem loop_progress_bound (k : ℕ) (hk : k < FRAMES_PER_SEGMENT) :
    0 ≤ (k : ℚ) / (FRAMES_PER_SEGMENT : ℚ)
    ∧ (k : ℚ) / (FRAMES_PER_SEGMENT : ℚ) ≤ 1 - 1 / (FRAMES_PER_SEGMENT : ℚ)
    ∧ (k : ℚ) / (FRAMES_PER_SEGMENT : ℚ) ≠ 1 := by
  rw [FRAMES_PER_SEGMENT_eq] at hk ⊢
  push_cast
  have hk179 : (k : ℚ) ≤ 179 := by exact_mod_cast (by omega : k ≤ 179)
  have h180 : (0 : ℚ) < 180 := by norm_num
  refine ⟨by positivity, ?_, ?_⟩
  · rw [div_le_iff₀ h180]
    have hval : ((1 : ℚ) - 1 / 180) * 180 = 179 := by norm_num
    rw [hval]
    exact hk179
  · intro h1
    rw [div_eq_one_iff_eq (by norm_num : (180 : ℚ) ≠ 0)] at h1
    have hk180 : k = 180 := by exact_mod_cast h1
    omega

theorem countP_exportFrameLoop_zero (segs : List Segment) :
    (exportFrameLoop segs).countP (fun pr => decide (pr.2 = 1)) = 0 := by
  rw [List.countP_eq_zero]
  intro pr hpr
  obtain ⟨k, hk, hpr2⟩ := exportFrameLoop_progress segs pr hpr
  simp only [decide_eq_true_eq]
  rw [hpr2]
  exact (loop_progress_bound k hk).2.2

/-- Claim C10: under both delivery strategies, the progress values passed to
the frame renderer all lie in the interval 0 to 1: both strategies draw the
same frame sequence; inside the main loop every progress value is
`frameIndex / framesPerSegment`, hence at most `1 - 1/framesPerSegment`;
the value 1 appears exactly once over the whole export; and it is the final
frame, paired with the last segment of the plan (rendered after the main
loop). -/
theorem C10_progress_in_range (segs : List Segment) :
    renderWithManualFrames segs = renderWithTimedFrames segs
    ∧ (∀ pr ∈ renderWithManualFrames segs, 0 ≤ pr.2 ∧ pr.2 ≤ 1)
    ∧ (∀ pr ∈ exportFrameLoop segs,
        pr.2 ≤ 1 - 1 / (FRAMES_PER_SEGMENT : ℚ)
        ∧ ∃ k : ℕ, k < FRAMES_PER_SEGMENT
            ∧ pr.2 = (k : ℚ) / (FRAMES_PER_SEGMENT : ℚ))
    ∧ (renderWithManualFrames segs).countP (fun pr => decide (pr.2 = 1)) = 1
    ∧ (renderWithManualFrames segs).getLast? = some (segs.getLast?, 1) := by
  have hle : (1 : ℚ) - 1 / (FRAMES_PER_SEGMENT : ℚ) ≤ 1 := by
    rw [FRAMES_PER_SEGMENT_eq]
    norm_num
  refine ⟨rfl, ?_, ?_, ?_, ?_⟩
  · intro pr hpr
    rw [renderWithManualFrames] at hpr
    rcases List.mem_append.mp hpr with h1 | h2
    · obtain ⟨k, hk, hpr2⟩ := exportFrameLoop_progress segs pr h1
      obtain ⟨hge, hub, _⟩ := loop_progress_bound k hk
      rw [hpr2]
      exact ⟨hge, le_trans hub hle⟩
    · simp at h2
      rw [h2]
      norm_num
  · intro pr hpr
    obtain ⟨k, hk, hpr2⟩ := exportFrameLoop_progress segs pr hpr
    obtain ⟨_, hub, _⟩ := loop_progress_bound k hk
    exact ⟨by rw [hpr2]; exact hub, k, hk, hpr2⟩
  · rw [renderWithManualFrames, List.countP_append, countP_exportFrameLoop_zero]
    simp [List.countP_cons]
  · rw [renderWithManualFrames]
    exact List.getLast?_concat _

/-- Witness for C10_progress_in_range at the concrete 20-segment plan. -/
theorem C10_witness :
    renderWithManualFrames testPlan = renderWithTimedFrames testPlan
    ∧ (∀ pr ∈ renderWithManualFrames testPlan, 0 ≤ pr.2 ∧ pr.2 ≤ 1)
    ∧ (∀ pr ∈ exportFrameLoop testPlan,
        pr.2 ≤ 1 - 1 / (FRAMES_PER_SEGMENT : ℚ)
        ∧ ∃ k : ℕ, k < FRAMES_PER_SEGMENT
            ∧ pr.2 = (k : ℚ) / (FRAMES_PER_SEGMENT : ℚ))
    ∧ (renderWithManualFrames testPlan).countP (fun pr => decide (pr.2 = 1)) = 1
    ∧ (renderWithManualFrames testPlan).getLast? = some (testPlan.getLast?, 1) :=
  C10_progress_in_range testPlan

end AAL
